import Mathlib

/-!
Shallow embedding of `word_search.py` (a word-search puzzle solver) and
proofs of the specified properties of its core routines:
`get_directions`, `is_valid_position`, `find_word_in_direction`,
`search_for_words`, and the loaders `load_grid` / `load_words`.

The grid is a list of rows, each row a list of the string tokens read
from the grid file (Python compares the cell string against the
one-character string obtained by iterating over the word).  Words are
embedded as their character lists (`String.data`), matching Python's
`for i, char in enumerate(word)`.

Two models are given.  The total model mirrors the code where every
sequence access the code performs is guarded (the guards are proved to
be exactly the executed guards).  The `..._py` model makes every Python
list indexing step explicitly fallible (`Option`, where `none` models a
raised `IndexError`), together with the short-circuit evaluation order
of `and` / `or` / chained comparisons, so that "never raises" claims
become provable statements.
-/

namespace WordSearch

/-- A grid: one list per row, each cell the token read from the grid file. -/
abbrev Grid := List (List String)

/-- A found-word record: `(word, start_row_1based, start_col_1based, direction)`. -/
abbrev Found := String × Nat × Nat × String

/-- `get_directions()`: the fixed ordered table of the 8 search vectors
`(delta_row, delta_col, direction_name)`. -/
def get_directions : List (Int × Int × String) :=
  [ (0, 1, "horizontal_right"),
    (0, -1, "horizontal_left"),
    (1, 0, "vertical_down"),
    (-1, 0, "vertical_up"),
    (1, 1, "diagonal_down_right"),
    (1, -1, "diagonal_down_left"),
    (-1, 1, "diagonal_up_right"),
    (-1, -1, "diagonal_up_left") ]

/-- The direction table entry at index `i` (out-of-range values are never used). -/
def dirAt (i : Nat) : Int × Int × String :=
  get_directions.getD i (0, 0, "")

/-- `is_valid_position(grid, row, col)`:
`return 0 <= row < len(grid) and 0 <= col < len(grid[0])`.
Python's `and` short-circuits, so `grid[0]` is only read once
`0 <= row < len(grid)` holds — hence the grid is then nonempty and
`grid.headD []` is exactly the row the code reads. -/
def is_valid_position (grid : Grid) (row col : Int) : Bool :=
  (decide (0 ≤ row) && decide (row < (grid.length : Int))) &&
    (decide (0 ≤ col) && decide (col < ((grid.headD []).length : Int)))

/-- The cell `grid[row][col]`.  The program reads it only after
`is_valid_position` succeeded, so both indices are nonnegative and in
range; `toNat`/`getD` agree with Python indexing there. -/
def cellAt (grid : Grid) (row col : Int) : String :=
  (grid.getD row.toNat []).getD col.toNat default

/-- The loop body of `find_word_in_direction` over `enumerate(word)`,
starting at word index `i`:
`if not is_valid_position(grid, row, col) or grid[row][col] != char: return False`. -/
def find_word_aux (grid : Grid) (start_row start_col delta_row delta_col : Int) :
    Nat → List Char → Bool
  | _, [] => true
  | i, ch :: rest =>
    let row := start_row + i * delta_row
    let col := start_col + i * delta_col
    if is_valid_position grid row col && (cellAt grid row col == ch.toString)
    then find_word_aux grid start_row start_col delta_row delta_col (i + 1) rest
    else false

/-- `find_word_in_direction(grid, word, start_row, start_col, delta_row, delta_col)`. -/
def find_word_in_direction (grid : Grid) (word : List Char)
    (start_row start_col delta_row delta_col : Int) : Bool :=
  find_word_aux grid start_row start_col delta_row delta_col 0 word

/-- The per-word part of `search_for_words`: the nested loops
`for start_row in range(len(grid))`, `for start_col in range(len(grid[0]))`,
`for delta_row, delta_col, direction in directions`, stopping at the first
success (the three `break`s guarded by `word_found`).  Returns the recorded
`(start_row + 1, start_col + 1, direction)` of the first match in exactly
that enumeration order, or `none` if no combination matches. -/
def search_word (grid : Grid) (word : List Char) : Option (Nat × Nat × String) :=
  (List.range grid.length).findSome? fun (start_row : Nat) =>
    (List.range (grid.headD []).length).findSome? fun (start_col : Nat) =>
      get_directions.findSome? fun d =>
        if find_word_in_direction grid word (start_row : Int) (start_col : Int) d.1 d.2.1
        then some (start_row + 1, start_col + 1, d.2.2)
        else none

/-- `search_for_words(grid, words)`: starts from `found_words = []` and, word
by word, appends `(word, start_row + 1, start_col + 1, direction)` when the
word is found, leaving `found_words` unchanged otherwise. -/
def search_for_words (grid : Grid) (words : List String) : List Found :=
  words.foldl
    (fun found_words word =>
      match search_word grid word.data with
      | some (row, col, direction) => found_words ++ [(word, row, col, direction)]
      | none => found_words)
    []

/-- Python `str.strip()`: drop whitespace from both ends. -/
def pyStrip (s : String) : String :=
  String.mk (((s.data.dropWhile Char.isWhitespace).reverse.dropWhile Char.isWhitespace).reverse)

/-- Python `str.split()` (no separator argument): split on whitespace runs,
producing no empty tokens. -/
def pySplit (s : String) : List String :=
  ((s.data.splitOnP Char.isWhitespace).filter (fun t => t ≠ [])).map String.mk

/-- Python `str.upper()` on the loaded words (ASCII, per `Char.toUpper`). -/
def pyUpper (s : String) : String :=
  String.mk (s.data.map Char.toUpper)

/-- `load_grid`, with the file contents given as its list of lines: strip each
line, skip blank lines, split the rest into tokens (the source further keeps
only non-empty tokens, the final `filter`). -/
def load_grid (lines : List String) : Grid :=
  lines.foldl
    (fun grid line =>
      let l := pyStrip line
      if l ≠ "" then grid ++ [(pySplit l).filter (fun s => s ≠ "")] else grid)
    []

/-- `load_words`, with the file contents given as its list of lines: strip and
uppercase each line, skip the blank ones. -/
def load_words (lines : List String) : List String :=
  lines.foldl
    (fun words line =>
      let word := pyUpper (pyStrip line)
      if word ≠ "" then words ++ [word] else words)
    []

/-- Python list indexing `xs[i]`: negative indices count from the end, and an
out-of-range index raises `IndexError`, modelled by `none`. -/
def pyIndex {α : Type} (xs : List α) (i : Int) : Option α :=
  let j : Int := if i < 0 then (xs.length : Int) + i else i
  if 0 ≤ j then xs.get? j.toNat else none

/-- `is_valid_position` with Python's evaluation order made explicit:
the read of `grid[0]` happens (and could fail) only after
`0 <= row < len(grid)` and `0 <= col` have already evaluated to true. -/
def is_valid_position_py (grid : Grid) (row col : Int) : Option Bool :=
  if 0 ≤ row ∧ row < (grid.length : Int) then
    if 0 ≤ col then
      (pyIndex grid 0).map fun row0 => decide (col < (row0.length : Int))
    else some false
  else some false

/-- The loop of `find_word_in_direction` with fallible grid reads: when the
position is invalid, `or` short-circuits and `grid[row][col]` is not read;
otherwise both indexing steps are performed and may raise. -/
def find_word_py (grid : Grid) (start_row start_col delta_row delta_col : Int) :
    Nat → List Char → Option Bool
  | _, [] => some true
  | i, ch :: rest => do
    let row := start_row + i * delta_row
    let col := start_col + i * delta_col
    let valid ← is_valid_position_py grid row col
    if !valid then some false
    else do
      let r ← pyIndex grid row
      let cell ← pyIndex r col
      if cell ≠ ch.toString then some false
      else find_word_py grid start_row start_col delta_row delta_col (i + 1) rest

/-- The direction loop of `search_for_words`, fallibly.  The inner `some`
layer is the loop's outcome (`none` = no direction matched here). -/
def searchDirs_py (grid : Grid) (word : List Char) (r c : Nat) :
    List (Int × Int × String) → Option (Option (Nat × Nat × String))
  | [] => some none
  | d :: rest => do
    let b ← find_word_py grid (r : Int) (c : Int) d.1 d.2.1 0 word
    if b then some (some (r + 1, c + 1, d.2.2))
    else searchDirs_py grid word r c rest

/-- The `start_col` loop of `search_for_words`, fallibly. -/
def searchCols_py (grid : Grid) (word : List Char) (r : Nat) :
    List Nat → Option (Option (Nat × Nat × String))
  | [] => some none
  | c :: cs => do
    let res ← searchDirs_py grid word r c get_directions
    match res with
    | some m => some (some m)
    | none => searchCols_py grid word r cs

/-- The `start_row` loop of `search_for_words`, fallibly: the bound
`range(len(grid[0]))` is re-evaluated on each row iteration and raises on a
rowless grid. -/
def searchRows_py (grid : Grid) (word : List Char) :
    List Nat → Option (Option (Nat × Nat × String))
  | [] => some none
  | r :: rs => do
    let row0 ← pyIndex grid 0
    let res ← searchCols_py grid word r (List.range row0.length)
    match res with
    | some m => some (some m)
    | none => searchRows_py grid word rs

/-- The per-word search with fallible indexing. -/
def search_word_py (grid : Grid) (word : List Char) : Option (Option (Nat × Nat × String)) :=
  searchRows_py grid word (List.range grid.length)

/-- The word loop of `search_for_words`, fallibly, carrying the accumulated
`found_words`; an exception (`none`) aborts the whole call. -/
def search_words_pyAux (grid : Grid) : List Found → List String → Option (List Found)
  | acc, [] => some acc
  | acc, w :: ws => do
    let res ← search_word_py grid w.data
    match res with
    | some (r, c, d) => search_words_pyAux grid (acc ++ [(w, r, c, d)]) ws
    | none => search_words_pyAux grid acc ws

/-- `search_for_words` with every Python list indexing step fallible:
`none` models the call raising `IndexError`. -/
def search_for_words_py (grid : Grid) (words : List String) : Option (List Found) :=
  search_words_pyAux grid [] words

/-! ### Helper lemmas -/

/-- If `f` returns `none` on every element, `findSome?` returns `none`. -/
theorem findSome?_all_none {α β : Type} (f : α → Option β) :
    ∀ l : List α, (∀ j (hj : j < l.length), f (l.get ⟨j, hj⟩) = none) →
      l.findSome? f = none := by
  intro l
  induction l with
  | nil => intro _; rfl
  | cons a t ih =>
    intro h
    rw [List.findSome?_cons]
    have h0 : f a = none := h 0 (by simp)
    rw [h0]
    exact ih fun j hj => h (j + 1) (by simpa using Nat.succ_lt_succ hj)

/-- `findSome?` returns the value of `f` at the first index where it is not
`none`. -/
theorem findSome?_first {α β : Type} (f : α → Option β) :
    ∀ (l : List α) (i : Nat) (hi : i < l.length) (b : β),
      (∀ j (hj : j < l.length), j < i → f (l.get ⟨j, hj⟩) = none) →
      f (l.get ⟨i, hi⟩) = some b →
      l.findSome? f = some b := by
  intro l
  induction l with
  | nil => intro i hi; simp at hi
  | cons a t ih =>
    intro i hi b h0 hs
    rw [List.findSome?_cons]
    cases i with
    | zero => rw [show f a = some b from hs]
    | succ i =>
      have ha : f a = none := h0 0 (by simp) (Nat.succ_pos i)
      rw [ha]
      exact ih i (by simpa using Nat.lt_of_succ_lt_succ hi) b
        (fun j hj hji => h0 (j + 1) (by simpa using Nat.succ_lt_succ hj)
          (Nat.succ_lt_succ hji)) hs

/-- A successful `findSome?` comes from some element of the list. -/
theorem exists_of_findSome?_some {α β : Type} (f : α → Option β) :
    ∀ (l : List α) (b : β), l.findSome? f = some b → ∃ a ∈ l, f a = some b := by
  intro l
  induction l with
  | nil => intro b h; simp [List.findSome?] at h
  | cons a t ih =>
    intro b h
    rw [List.findSome?_cons] at h
    cases ha : f a with
    | some b' =>
      rw [ha] at h
      exact ⟨a, List.mem_cons_self a t, ha.trans h⟩
    | none =>
      rw [ha] at h
      obtain ⟨x, hx, hfx⟩ := ih b h
      exact ⟨x, List.mem_cons_of_mem a hx, hfx⟩

/-- The `get` view of the direction table. -/
theorem get_dirs (j : Nat) (hj : j < get_directions.length) :
    get_directions.get ⟨j, hj⟩ = dirAt j := by
  have hj8 : j < 8 := by simpa [get_directions] using hj
  interval_cases j <;> rfl

/-- In a nonempty grid whose rows all have length `C`, the row read by
`len(grid[0])` has length `C`. -/
theorem headD_length (grid : Grid) (C : Nat)
    (hC : ∀ row ∈ grid, row.length = C) (hne : grid ≠ []) :
    (grid.headD []).length = C := by
  cases grid with
  | nil => exact absurd rfl hne
  | cons a t => exact hC a (List.mem_cons_self a t)

/-- Unconditional unfolding of the bounds check into the four comparisons the
code performs. -/
theorem is_valid_position_iff (grid : Grid) (row col : Int) :
    is_valid_position grid row col = true ↔
      0 ≤ row ∧ row < (grid.length : Int) ∧ 0 ≤ col ∧
        col < ((grid.headD []).length : Int) := by
  simp [is_valid_position, and_assoc]

/-- The matcher loop, characterized: starting at word index `i`, it succeeds
iff every remaining character sits, in bounds, at its offset position. -/
theorem find_word_aux_iff (grid : Grid) (sr sc dr dc : Int) :
    ∀ (cs : List Char) (i : Nat),
      find_word_aux grid sr sc dr dc i cs = true ↔
        ∀ j (hj : j < cs.length),
          is_valid_position grid (sr + ((i + j : Nat) : Int) * dr)
              (sc + ((i + j : Nat) : Int) * dc) = true ∧
          cellAt grid (sr + ((i + j : Nat) : Int) * dr)
              (sc + ((i + j : Nat) : Int) * dc) = (cs.get ⟨j, hj⟩).toString := by
  intro cs
  induction cs with
  | nil => intro i; simp [find_word_aux]
  | cons ch rest ih =>
    intro i
    rw [find_word_aux]
    constructor
    · intro h
      split at h
      case isTrue hcond =>
        simp only [Bool.and_eq_true, beq_iff_eq] at hcond
        intro j hj
        cases j with
        | zero =>
          simp only [Nat.add_zero]
          exact ⟨hcond.1, by simpa using hcond.2⟩
        | succ j =>
          have := (ih (i + 1)).mp h j (by simpa using Nat.lt_of_succ_lt_succ hj)
          have harith : i + 1 + j = i + (j + 1) := by omega
          rw [harith] at this
          exact ⟨this.1, by simpa using this.2⟩
      case isFalse hcond => exact absurd h (by simp)
    · intro h
      have h0 := h 0 (by simp)
      simp only [Nat.add_zero] at h0
      have hcell : cellAt grid (sr + (i : Int) * dr) (sc + (i : Int) * dc) = ch.toString := by
        simpa using h0.2
      split
      case isTrue hcond =>
        refine (ih (i + 1)).mpr fun j hj => ?_
        have := h (j + 1) (by simpa using Nat.succ_lt_succ hj)
        have harith : i + (j + 1) = i + 1 + j := by omega
        rw [harith] at this
        exact ⟨this.1, by simpa using this.2⟩
      case isFalse hcond =>
        exact absurd (by rw [h0.1, hcell]; simp) hcond

/-- The matcher, characterized from word index `0`. -/
theorem find_word_iff (grid : Grid) (word : List Char) (sr sc dr dc : Int) :
    find_word_in_direction grid word sr sc dr dc = true ↔
      ∀ j (hj : j < word.length),
        is_valid_position grid (sr + (j : Int) * dr) (sc + (j : Int) * dc) = true ∧
        cellAt grid (sr + (j : Int) * dr) (sc + (j : Int) * dc) =
          (word.get ⟨j, hj⟩).toString := by
  rw [find_word_in_direction, find_word_aux_iff]
  constructor
  · intro h j hj
    have := h j hj
    simpa using this
  · intro h j hj
    have := h j hj
    simpa using this

/-- A failing bounds check, from the negation of the four comparisons. -/
theorem is_valid_position_eq_false (grid : Grid) (row col : Int)
    (h : ¬(0 ≤ row ∧ row < (grid.length : Int) ∧ 0 ≤ col ∧
        col < ((grid.headD []).length : Int))) :
    is_valid_position grid row col = false := by
  cases hb : is_valid_position grid row col with
  | false => rfl
  | true => exact absurd ((is_valid_position_iff grid row col).mp hb) h

/-- The fallible bounds check never raises and agrees with the total one:
`grid[0]` is reached only under `0 <= row < len(grid)`, which forces the grid
to be nonempty. -/
theorem is_valid_position_py_eq (grid : Grid) (row col : Int) :
    is_valid_position_py grid row col = some (is_valid_position grid row col) := by
  rcases grid with _ | ⟨a, t⟩
  · rw [is_valid_position_py]
    split
    case isTrue h => exact absurd h (by simp)
    case isFalse h =>
      rw [is_valid_position_eq_false]
      exact fun hc => h ⟨hc.1, hc.2.1⟩
  · rw [is_valid_position_py]
    split
    case isTrue h =>
      split
      case isTrue hcol =>
        have hpy : pyIndex (a :: t) 0 = some a := by simp [pyIndex]
        rw [hpy]
        show some (decide (col < (a.length : Int))) = some (is_valid_position (a :: t) row col)
        congr 1
        simp [is_valid_position, h.1, hcol]
        have h2 := h.2
        simp at h2
        omega
      case isFalse hcol =>
        rw [is_valid_position_eq_false]
        exact fun hc => hcol hc.2.2.1
    case isFalse h =>
      rw [is_valid_position_eq_false]
      exact fun hc => h ⟨hc.1, hc.2.1⟩

/-- The word loop of `search_for_words`, rephrased: starting from any
accumulator, it appends one record per found word, in word-list order. -/
theorem search_foldl_eq (grid : Grid) :
    ∀ (ws : List String) (acc : List Found),
      ws.foldl (fun found_words word =>
        match search_word grid word.data with
        | some (row, col, direction) => found_words ++ [(word, row, col, direction)]
        | none => found_words) acc
      = acc ++ ws.filterMap fun w =>
          (search_word grid w.data).map fun m => (w, m.1, m.2.1, m.2.2) := by
  intro ws
  induction ws with
  | nil => intro acc; simp
  | cons w t ih =>
    intro acc
    rw [List.foldl_cons, List.filterMap_cons]
    cases h : search_word grid w.data with
    | none =>
      simp only [h, Option.map_none']
      exact ih acc
    | some m =>
      rcases m with ⟨r, c, d⟩
      simp only [h, Option.map_some]
      rw [ih]
      simp

/-- `search_for_words` as a `filterMap` over the word list. -/
theorem search_for_words_eq (grid : Grid) (ws : List String) :
    search_for_words grid ws
      = ws.filterMap fun w =>
          (search_word grid w.data).map fun m => (w, m.1, m.2.1, m.2.2) := by
  rw [search_for_words, search_foldl_eq]
  simp

/-! ### Claim theorems -/

/-- C4: for every rectangular non-empty grid with `R` rows and `C` columns and
every pair of integers `(row, col)`, `is_valid_position` returns true iff
`0 ≤ row < R` and `0 ≤ col < C`. -/
theorem is_valid_position_bounds (grid : Grid) (R C : Nat)
    (hR : grid.length = R) (hC : ∀ row ∈ grid, row.length = C) (hne : grid ≠ []) :
    ∀ row col : Int,
      is_valid_position grid row col = true ↔
        0 ≤ row ∧ row < (R : Int) ∧ 0 ≤ col ∧ col < (C : Int) := by
  intro row col
  rw [is_valid_position_iff, headD_length grid C hC hne, hR]

/-- Witness for C4 at the concrete 1×2 grid `A B`. -/
theorem is_valid_position_bounds_witness :
    (∀ row ∈ ([["A", "B"]] : Grid), row.length = 2) ∧ (([["A", "B"]] : Grid) ≠ []) ∧
    is_valid_position [["A", "B"]] 0 1 = true :=
  ⟨by decide, by decide,
    (is_valid_position_bounds [["A", "B"]] 1 2 rfl (by decide) (by decide) 0 1).mpr
      (by decide)⟩

/-- C2: for every rectangular non-empty grid, word, start cell and direction,
`find_word_in_direction` returns true iff every character of the word sits
in bounds at its offset position with the matching grid cell; in particular a
path running off the grid edge is rejected (some index then fails the bounds
conjunct). -/
theorem find_word_in_direction_correct (grid : Grid) (word : List Char)
    (sr sc dr dc : Int) (C : Nat)
    (hC : ∀ row ∈ grid, row.length = C) (hne : grid ≠ []) :
    find_word_in_direction grid word sr sc dr dc = true ↔
      ∀ i (hi : i < word.length),
        (0 ≤ sr + (i : Int) * dr ∧ sr + (i : Int) * dr < (grid.length : Int) ∧
          0 ≤ sc + (i : Int) * dc ∧ sc + (i : Int) * dc < (C : Int)) ∧
        cellAt grid (sr + (i : Int) * dr) (sc + (i : Int) * dc) =
          (word.get ⟨i, hi⟩).toString := by
  rw [find_word_iff]
  refine forall_congr' fun i => forall_congr' fun hi => and_congr ?_ Iff.rfl
  rw [is_valid_position_iff, headD_length grid C hC hne]

/-- Witness for C2: in the 1×2 grid `A B`, the word `AB` matches to the right
from the top-left corner. -/
theorem find_word_in_direction_correct_witness :
    (∀ row ∈ ([["A", "B"]] : Grid), row.length = 2) ∧ (([["A", "B"]] : Grid) ≠ []) ∧
    find_word_in_direction [["A", "B"]] ['A', 'B'] 0 0 0 1 = true :=
  ⟨by decide, by decide,
    (find_word_in_direction_correct [["A", "B"]] ['A', 'B'] 0 0 0 1 2
        (by decide) (by decide)).mpr (by decide)⟩

/-- C3: `search_for_words` returns, in the order the words were supplied, at
most one record per supplied word (the `filterMap` of the per-word search),
and a word with no occurrence contributes no record; consequently the output
words form a sublist of the input word list. -/
theorem search_for_words_ordered (grid : Grid) (words : List String) :
    search_for_words grid words
        = (words.filterMap fun w =>
            (search_word grid w.data).map fun m => (w, m.1, m.2.1, m.2.2)) ∧
    ((search_for_words grid words).map fun t => t.1).Sublist words := by
  have he := search_for_words_eq grid words
  refine ⟨he, ?_⟩
  rw [he]
  clear he
  induction words with
  | nil => simp
  | cons w t ih =>
    rw [List.filterMap_cons]
    cases h : search_word grid w.data with
    | none =>
      simp only [Option.map_none']
      exact ih.cons w
    | some m =>
      simp only [Option.map_some', List.map_cons]
      exact ih.cons₂ w

/-- C9: the search of each word is independent of the other words:
`search_for_words` distributes over concatenation of word lists. -/
theorem search_for_words_append (grid : Grid) (ws1 ws2 : List String) :
    search_for_words grid (ws1 ++ ws2)
      = search_for_words grid ws1 ++ search_for_words grid ws2 := by
  rw [search_for_words_eq, search_for_words_eq, search_for_words_eq,
    List.filterMap_append]

/-- C6: `is_valid_position` has no failure modes: on every grid (the empty
grid included) and all integers, the fallible model returns `some` of the
total answer — the read of `grid[0]` is protected by the short-circuit — and
on the empty grid the answer is always `false`. -/
theorem is_valid_position_never_fails :
    (∀ (grid : Grid) (row col : Int),
        is_valid_position_py grid row col = some (is_valid_position grid row col)) ∧
    (∀ row col : Int, is_valid_position_py ([] : Grid) row col = some false) := by
  refine ⟨is_valid_position_py_eq, fun row col => ?_⟩
  rw [is_valid_position_py_eq]
  congr 1
  exact is_valid_position_eq_false _ _ _ (by simp)

/-- C1: on a rectangular non-empty grid, when a word matches at a
`(start cell, direction)` triple and at no triple earlier in the enumeration
order (ascending row, then ascending column, then the direction-table order),
and at least one further triple also matches, `search_for_words`' per-word
search returns exactly the earliest triple's record: the search stops at this
first success. -/
theorem search_first_match (grid : Grid) (word : List Char) (C : Nat)
    (hC : ∀ row ∈ grid, row.length = C)
    (r c i : Nat) (hr : r < grid.length) (hc : c < C) (hi : i < 8)
    (hmatch : find_word_in_direction grid word (r : Int) (c : Int)
        (dirAt i).1 (dirAt i).2.1 = true)
    (hmin : ∀ r' c' i', r' < grid.length → c' < C → i' < 8 →
        (r' < r ∨ (r' = r ∧ (c' < c ∨ (c' = c ∧ i' < i)))) →
        find_word_in_direction grid word (r' : Int) (c' : Int)
          (dirAt i').1 (dirAt i').2.1 = false)
    (r₂ c₂ i₂ : Nat) (hr₂ : r₂ < grid.length) (hc₂ : c₂ < C) (hi₂ : i₂ < 8)
    (hne2 : (r₂, c₂, i₂) ≠ (r, c, i))
    (hmatch₂ : find_word_in_direction grid word (r₂ : Int) (c₂ : Int)
        (dirAt i₂).1 (dirAt i₂).2.1 = true) :
    search_word grid word = some (r + 1, c + 1, (dirAt i).2.2) := by
  have hgne : grid ≠ [] := by
    intro hnil
    rw [hnil] at hr
    simp at hr
  have hC0 : (grid.headD []).length = C := headD_length grid C hC hgne
  have hdirs : (get_directions.findSome? fun d =>
      if find_word_in_direction grid word (r : Int) (c : Int) d.1 d.2.1
      then some (r + 1, c + 1, d.2.2) else none)
        = some (r + 1, c + 1, (dirAt i).2.2) := by
    apply findSome?_first _ get_directions i (by simpa [get_directions] using hi)
    · intro j hj hji
      rw [get_dirs j hj]
      have hf := hmin r c j hr hc (by simpa [get_directions] using hj)
        (Or.inr ⟨rfl, Or.inr ⟨rfl, hji⟩⟩)
      simp [hf]
    · rw [get_dirs i (by simpa [get_directions] using hi)]
      simp [hmatch]
  have hnone : ∀ r' c' : Nat, r' < grid.length → c' < C →
      (r' < r ∨ (r' = r ∧ c' < c)) →
      (get_directions.findSome? fun d =>
        if find_word_in_direction grid word (r' : Int) (c' : Int) d.1 d.2.1
        then some (r' + 1, c' + 1, d.2.2) else none) = none := by
    intro r' c' hr' hc' hlt
    apply findSome?_all_none
    intro j hj
    rw [get_dirs j hj]
    have hf := hmin r' c' j hr' hc' (by simpa [get_directions] using hj) (by tauto)
    simp [hf]
  have hcols : ((List.range (grid.headD []).length).findSome? fun (start_col : Nat) =>
      get_directions.findSome? fun d =>
        if find_word_in_direction grid word (r : Int) (start_col : Int) d.1 d.2.1
        then some (r + 1, start_col + 1, d.2.2) else none)
        = some (r + 1, c + 1, (dirAt i).2.2) := by
    apply findSome?_first _ _ c (by rw [List.length_range, hC0]; exact hc)
    · intro j hj hjc
      rw [List.get_range]
      exact hnone r j hr (by rw [List.length_range, hC0] at hj; exact hj) (Or.inr ⟨rfl, hjc⟩)
    · rw [List.get_range]
      exact hdirs
  unfold search_word
  apply findSome?_first _ _ r (by simpa using hr)
  · intro j hj hjr
    rw [List.get_range]
    apply findSome?_all_none
    intro k hk
    rw [List.get_range]
    exact hnone j k (by simpa using hj) (by rw [List.length_range, hC0] at hk; exact hk) (Or.inl hjr)
  · rw [List.get_range]
    exact hcols

/-- Witness for C1: in the 1×2 grid `A A`, the single-letter word `A` matches
at several triples, and the search returns the earliest one. -/
theorem search_first_match_witness :
    search_word [["A", "A"]] ['A'] = some (1, 1, "horizontal_right") :=
  search_first_match [["A", "A"]] ['A'] 2 (by decide) 0 0 0 (by decide) (by decide)
    (by decide) (by decide)
    (fun r' c' i' _ _ _ hlex => absurd hlex (by omega))
    0 0 1 (by decide) (by decide) (by decide) (by decide) (by decide)

/-- A length-1 word matches at a cell in some direction iff the cell is in
bounds and holds the word's character — independently of the direction. -/
theorem find_word_single (grid : Grid) (ch : Char) (r c dr dc : Int) :
    find_word_in_direction grid [ch] r c dr dc =
      (is_valid_position grid r c && (cellAt grid r c == ch.toString)) := by
  simp only [find_word_in_direction, find_word_aux, Nat.cast_zero, zero_mul, add_zero]
  cases hcond : (is_valid_position grid r c && (cellAt grid r c == ch.toString)) <;>
    simp [hcond]

/-- C7: a single-character word matches exactly at the grid cells carrying its
character (in any direction), every reported match for it carries the first
enumerated direction `horizontal_right`, and on the grid `A B / C D` the word
`A` yields the single record `("A", 1, 1, "horizontal_right")`. -/
theorem single_char_word_first_direction :
    (∀ (grid : Grid) (ch : Char) (r c dr dc : Int),
        find_word_in_direction grid [ch] r c dr dc =
          (is_valid_position grid r c && (cellAt grid r c == ch.toString))) ∧
    (∀ (grid : Grid) (ch : Char) (out : Nat × Nat × String),
        search_word grid [ch] = some out → out.2.2 = "horizontal_right") ∧
    search_for_words [["A", "B"], ["C", "D"]] ["A"]
      = [("A", 1, 1, "horizontal_right")] := by
  refine ⟨find_word_single, ?_, by decide⟩
  intro grid ch out h
  unfold search_word at h
  obtain ⟨r, hrmem, hr⟩ := exists_of_findSome?_some _ _ _ h
  obtain ⟨c, hcmem, hc⟩ := exists_of_findSome?_some _ _ _ hr
  by_cases hcond : (is_valid_position grid (r : Int) (c : Int) &&
      (cellAt grid (r : Int) (c : Int) == ch.toString)) = true
  · have hfirst : (get_directions.findSome? fun d =>
        if find_word_in_direction grid [ch] (r : Int) (c : Int) d.1 d.2.1
        then some (r + 1, c + 1, d.2.2) else none)
          = some (r + 1, c + 1, "horizontal_right") := by
      unfold get_directions
      rw [List.findSome?_cons]
      simp [find_word_single, hcond]
    rw [hfirst] at hc
    have := Option.some.inj hc
    rw [← this]
  · simp only [Bool.not_eq_true] at hcond
    have hallnone : (get_directions.findSome? fun d =>
        if find_word_in_direction grid [ch] (r : Int) (c : Int) d.1 d.2.1
        then some (r + 1, c + 1, d.2.2) else none) = none := by
      apply findSome?_all_none
      intro j hj
      simp [find_word_single, hcond]
    rw [hallnone] at hc
    exact absurd hc (by simp)

/-- Witness for C7's implication at a concrete instance. -/
theorem single_char_word_first_direction_witness :
    ((1, 1, "horizontal_right") : Nat × Nat × String).2.2 = "horizontal_right" :=
  single_char_word_first_direction.2.1 [["A"]] ('A') ((1, 1, "horizontal_right"))
    (by decide)

/-- C10: the empty word is matched by `find_word_in_direction` for every grid,
start position (in bounds or not) and direction, and passing it to
`search_for_words` on a grid with at least one row and one column reports it
found at `(1, 1, "horizontal_right")`. -/
theorem empty_word_matches :
    (∀ (grid : Grid) (sr sc dr dc : Int),
        find_word_in_direction grid [] sr sc dr dc = true) ∧
    (∀ grid : Grid, 1 ≤ grid.length → 1 ≤ (grid.headD []).length →
        search_for_words grid [""] = [("", 1, 1, "horizontal_right")]) := by
  constructor
  · intro grid sr sc dr dc; rfl
  · intro grid h1 h2
    have hsw : search_word grid ([] : List Char) = some (1, 1, "horizontal_right") := by
      unfold search_word
      apply findSome?_first _ _ 0 (by simpa using h1)
      · intro j hj hj0
        exact absurd hj0 (Nat.not_lt_zero j)
      · rw [List.get_range]
        apply findSome?_first _ _ 0 (by simpa using h2)
        · intro j hj hj0
          exact absurd hj0 (Nat.not_lt_zero j)
        · rw [List.get_range]
          unfold get_directions
          rw [List.findSome?_cons]
          rfl
    have hdata : ("" : String).data = ([] : List Char) := rfl
    simp [search_for_words, hdata, hsw]

/-- Witness for C10 on the 1×1 grid `A`. -/
theorem empty_word_matches_witness :
    search_for_words [["A"]] [""] = [("", 1, 1, "horizontal_right")] :=
  empty_word_matches.2 [["A"]] (by decide) (by decide)

/-- Python indexing with a nonnegative in-range index succeeds and agrees
with `getD` (for any default). -/
theorem pyIndex_pos {α : Type} (xs : List α) (n : Int) (d : α) (h0 : 0 ≤ n)
    (hl : n.toNat < xs.length) : pyIndex xs n = some (xs.getD n.toNat d) := by
  have hnlt : ¬ n < 0 := by omega
  rw [pyIndex]
  simp only [if_neg hnlt, if_pos h0]
  rw [List.get?_eq_get hl, List.getD_eq_get xs d hl]

/-- On a grid whose rows all have the common length `C`, the fallible matcher
never raises and agrees with the total one: the reads of `grid[row][col]`
happen only after the bounds check passed, and rectangularity puts `col`
within the actual row. -/
theorem find_word_py_eq (grid : Grid) (C : Nat) (hC : ∀ row ∈ grid, row.length = C)
    (sr sc dr dc : Int) :
    ∀ (cs : List Char) (i : Nat),
      find_word_py grid sr sc dr dc i cs
        = some (find_word_aux grid sr sc dr dc i cs) := by
  intro cs
  induction cs with
  | nil => intro i; rfl
  | cons ch rest ih =>
    intro i
    rw [find_word_py, find_word_aux, is_valid_position_py_eq]
    cases hv : is_valid_position grid (sr + (i : Int) * dr) (sc + (i : Int) * dc) with
    | false => simp [hv]
    | true =>
      obtain ⟨h0r, hlr, h0c, hlc⟩ := (is_valid_position_iff grid _ _).mp hv
      have hgne : grid ≠ [] := by
        intro hnil
        rw [hnil] at hlr
        simp at hlr
        omega
      have hC0 : (grid.headD []).length = C := headD_length grid C hC hgne
      have hrowlt : (sr + (i : Int) * dr).toNat < grid.length := by omega
      have hpyrow : pyIndex grid (sr + (i : Int) * dr)
          = some (grid.getD (sr + (i : Int) * dr).toNat []) :=
        pyIndex_pos grid _ [] h0r hrowlt
      have hrowmem : grid.getD (sr + (i : Int) * dr).toNat [] ∈ grid := by
        rw [List.getD_eq_get grid [] hrowlt]
        exact List.get_mem grid _ hrowlt
      have hrowlen : (grid.getD (sr + (i : Int) * dr).toNat []).length = C :=
        hC _ hrowmem
      have hcollt : (sc + (i : Int) * dc).toNat
          < (grid.getD (sr + (i : Int) * dr).toNat []).length := by
        rw [hrowlen]
        rw [hC0] at hlc
        omega
      have hpycell : pyIndex (grid.getD (sr + (i : Int) * dr).toNat [])
          (sc + (i : Int) * dc)
          = some (cellAt grid (sr + (i : Int) * dr) (sc + (i : Int) * dc)) :=
        pyIndex_pos _ _ default h0c hcollt
      by_cases hcell : cellAt grid (sr + (i : Int) * dr) (sc + (i : Int) * dc) = ch.toString
      · simp only [List.getD_eq_getElem?_getD] at hpycell
        simp [hpyrow, hpycell, hcell, ih (i + 1)]
      · simp only [List.getD_eq_getElem?_getD] at hpycell
        simp [hpyrow, hpycell, hcell]

/-- On a rectangular grid the fallible direction loop never raises and finds
the first matching direction. -/
theorem searchDirs_py_eq (grid : Grid) (C : Nat)
    (hC : ∀ row ∈ grid, row.length = C) (word : List Char) (r c : Nat) :
    ∀ dirs : List (Int × Int × String),
      searchDirs_py grid word r c dirs
        = some (dirs.findSome? fun d =>
            if find_word_in_direction grid word (r : Int) (c : Int) d.1 d.2.1
            then some (r + 1, c + 1, d.2.2) else none) := by
  intro dirs
  induction dirs with
  | nil => rfl
  | cons d rest ih =>
    rw [searchDirs_py, List.findSome?_cons]
    rw [find_word_py_eq grid C hC]
    cases hb : find_word_in_direction grid word (r : Int) (c : Int) d.1 d.2.1 with
    | true =>
      rw [find_word_in_direction] at hb
      simp [hb]
    | false =>
      rw [find_word_in_direction] at hb
      simp [hb, ih]

/-- On a rectangular grid the fallible column loop never raises and finds the
first matching column. -/
theorem searchCols_py_eq (grid : Grid) (C : Nat)
    (hC : ∀ row ∈ grid, row.length = C) (word : List Char) (r : Nat) :
    ∀ cols : List Nat,
      searchCols_py grid word r cols
        = some (cols.findSome? fun (start_col : Nat) =>
            get_directions.findSome? fun d =>
              if find_word_in_direction grid word (r : Int) (start_col : Int) d.1 d.2.1
              then some (r + 1, start_col + 1, d.2.2) else none) := by
  intro cols
  induction cols with
  | nil => rfl
  | cons c cs ih =>
    rw [searchCols_py, List.findSome?_cons]
    rw [searchDirs_py_eq grid C hC]
    cases hres : get_directions.findSome? fun d =>
        if find_word_in_direction grid word (r : Int) (c : Int) d.1 d.2.1
        then some (r + 1, c + 1, d.2.2) else none with
    | some m => simp
    | none => simp [ih]

/-- On a rectangular grid the fallible per-word search never raises and agrees
with the total one. -/
theorem search_word_py_eq (grid : Grid) (C : Nat)
    (hC : ∀ row ∈ grid, row.length = C) (word : List Char) :
    search_word_py grid word = some (search_word grid word) := by
  cases hg : grid with
  | nil => rfl
  | cons row0 t =>
    rw [hg] at hC
    have haux : ∀ rows : List Nat,
        searchRows_py (row0 :: t) word rows
          = some (rows.findSome? fun (start_row : Nat) =>
              (List.range ((row0 :: t).headD []).length).findSome? fun (start_col : Nat) =>
                get_directions.findSome? fun d =>
                  if find_word_in_direction (row0 :: t) word (start_row : Int)
                      (start_col : Int) d.1 d.2.1
                  then some (start_row + 1, start_col + 1, d.2.2) else none) := by
      intro rows
      induction rows with
      | nil => rfl
      | cons r rs ih =>
        rw [searchRows_py, List.findSome?_cons]
        have hpy0 : pyIndex (row0 :: t) 0 = some row0 := by
          have : pyIndex (row0 :: t) 0 = some ((row0 :: t).getD (0 : Int).toNat []) :=
            pyIndex_pos (row0 :: t) 0 [] (by omega) (by simp)
          simpa using this
        rw [hpy0]
        simp only [Option.bind_eq_bind, Option.some_bind]
        rw [searchCols_py_eq (row0 :: t) C hC]
        cases hres : (List.range row0.length).findSome? fun (start_col : Nat) =>
            get_directions.findSome? fun d =>
              if find_word_in_direction (row0 :: t) word (r : Int) (start_col : Int) d.1 d.2.1
              then some (r + 1, start_col + 1, d.2.2) else none with
        | some m =>
          simp only [Option.bind_eq_bind, Option.some_bind]
          rw [show ((row0 :: t).headD []).length = row0.length from rfl, hres]
        | none =>
          simp only [Option.bind_eq_bind, Option.some_bind]
          rw [show ((row0 :: t).headD []).length = row0.length from rfl, hres, ih]
          rfl
    rw [search_word_py, search_word, haux]

/-- On a rectangular grid the fallible word loop never raises, and agrees with
the total accumulation from any starting accumulator. -/
theorem search_words_pyAux_eq (grid : Grid) (C : Nat)
    (hC : ∀ row ∈ grid, row.length = C) :
    ∀ (ws : List String) (acc : List Found),
      search_words_pyAux grid acc ws
        = some (ws.foldl
            (fun found_words word =>
              match search_word grid word.data with
              | some (row, col, direction) => found_words ++ [(word, row, col, direction)]
              | none => found_words)
            acc) := by
  intro ws
  induction ws with
  | nil => intro acc; rfl
  | cons w t ih =>
    intro acc
    rw [search_words_pyAux, search_word_py_eq grid C hC, List.foldl_cons]
    cases h : search_word grid w.data with
    | some m =>
      rcases m with ⟨r, c, d⟩
      simp [ih]
    | none =>
      simp [ih]

/-- On a rectangular grid `search_for_words` never raises. -/
theorem search_for_words_py_eq (grid : Grid) (C : Nat)
    (hC : ∀ row ∈ grid, row.length = C) (ws : List String) :
    search_for_words_py grid ws = some (search_for_words grid ws) := by
  rw [search_for_words_py, search_words_pyAux_eq grid C hC, search_for_words]

/-- On the zero-row grid no word is ever found. -/
theorem search_word_nil (word : List Char) : search_word ([] : Grid) word = none := rfl

/-- A word longer than `max R C` cannot fit along any straight line: index
`L - 1` of the word always leaves the grid, whichever of the 8 directions is
taken. -/
theorem search_word_none_of_long (grid : Grid) (C : Nat)
    (hC : ∀ row ∈ grid, row.length = C) (word : List Char)
    (hlen : max grid.length C < word.length) :
    search_word grid word = none := by
  have hRlt : grid.length < word.length := lt_of_le_of_lt (le_max_left _ _) hlen
  have hClt : C < word.length := lt_of_le_of_lt (le_max_right _ _) hlen
  unfold search_word
  apply findSome?_all_none
  intro r hrl
  rw [List.get_range]
  have hr : r < grid.length := by simpa using hrl
  have hgne : grid ≠ [] := by
    intro hnil
    rw [hnil] at hr
    simp at hr
  have hC0 : (grid.headD []).length = C := headD_length grid C hC hgne
  apply findSome?_all_none
  intro c hcl
  rw [List.get_range]
  have hc : c < C := by rw [List.length_range, hC0] at hcl; exact hcl
  apply findSome?_all_none
  intro j hj
  rw [get_dirs j hj]
  have hj8 : j < 8 := by simpa [get_directions] using hj
  have hfw : find_word_in_direction grid word (r : Int) (c : Int)
      (dirAt j).1 (dirAt j).2.1 = false := by
    cases hb : find_word_in_direction grid word (r : Int) (c : Int)
        (dirAt j).1 (dirAt j).2.1 with
    | false => rfl
    | true =>
      exfalso
      obtain ⟨hval, -⟩ := (find_word_iff grid word _ _ _ _).mp hb (word.length - 1)
        (by omega)
      rw [is_valid_position_iff, hC0] at hval
      obtain ⟨h1, h2, h3, h4⟩ := hval
      interval_cases j <;>
        simp [dirAt, get_directions] at h1 h2 h3 h4 <;> omega
  simp [hfw]

/-- A word containing a character that appears in no grid cell is never
found: a successful match would place that character's cell, in bounds, equal
to a cell of the grid. -/
theorem search_word_none_of_missing (grid : Grid) (C : Nat)
    (hC : ∀ row ∈ grid, row.length = C) (word : List Char) (x : Char)
    (hx : x ∈ word) (hmiss : ∀ row ∈ grid, ∀ cell ∈ row, cell ≠ x.toString) :
    search_word grid word = none := by
  unfold search_word
  apply findSome?_all_none
  intro r hrl
  rw [List.get_range]
  have hr : r < grid.length := by simpa using hrl
  have hgne : grid ≠ [] := by
    intro hnil
    rw [hnil] at hr
    simp at hr
  have hC0 : (grid.headD []).length = C := headD_length grid C hC hgne
  apply findSome?_all_none
  intro c hcl
  rw [List.get_range]
  apply findSome?_all_none
  intro j hj
  rw [get_dirs j hj]
  have hfw : find_word_in_direction grid word (r : Int) (c : Int)
      (dirAt j).1 (dirAt j).2.1 = false := by
    cases hb : find_word_in_direction grid word (r : Int) (c : Int)
        (dirAt j).1 (dirAt j).2.1 with
    | false => rfl
    | true =>
      exfalso
      obtain ⟨⟨ix, hix⟩, hgetx⟩ := List.mem_iff_get.mp hx
      obtain ⟨hval, hcell⟩ := (find_word_iff grid word _ _ _ _).mp hb ix hix
      rw [hgetx] at hcell
      rw [is_valid_position_iff, hC0] at hval
      obtain ⟨h1, h2, h3, h4⟩ := hval
      have hrowlt : ((r : Int) + (ix : Int) * (dirAt j).1).toNat < grid.length := by
        omega
      have hrowmem : grid.getD ((r : Int) + (ix : Int) * (dirAt j).1).toNat [] ∈ grid := by
        rw [List.getD_eq_get grid [] hrowlt]
        exact List.get_mem grid _ hrowlt
      have hcollt : ((c : Int) + (ix : Int) * (dirAt j).2.1).toNat
          < (grid.getD ((r : Int) + (ix : Int) * (dirAt j).1).toNat []).length := by
        rw [hC _ hrowmem]
        omega
      have hcellmem : cellAt grid ((r : Int) + (ix : Int) * (dirAt j).1)
          ((c : Int) + (ix : Int) * (dirAt j).2.1)
          ∈ grid.getD ((r : Int) + (ix : Int) * (dirAt j).1).toNat [] := by
        rw [cellAt, List.getD_eq_get _ default hcollt]
        exact List.get_mem _ _ hcollt
      exact hmiss _ hrowmem _ hcellmem hcell
  simp [hfw]

/-- C5 is refuted as stated for arbitrary (non-rectangular) grids: on the
ragged grid `A B / C` with word list `["CH"]`, the matcher passes the bounds
check at `(1, 1)` — row 0 has two columns — but the read `grid[1][1]` is out
of range for the short row 1, and the call raises (`none` in the fallible
model), instead of returning a result. -/
theorem search_for_words_raises_on_ragged :
    search_for_words_py [["A", "B"], ["C"]] ["CH"] = none := by decide

/-- C5 (amended with rectangularity, which §3 of the spec guarantees and §6
declares ragged input undefined behavior): on every grid whose rows share one
common length — the zero-row grid included — `search_for_words` never raises
(the fallible model returns `some` of the total result), and the edge cases
all resolve to "not found": a zero-length grid yields no records at all, a
word longer than any straight line that fits (longer than `max R C`) yields
no record, and a word containing a character appearing nowhere in the grid
yields no record. -/
theorem search_for_words_safe (grid : Grid) (C : Nat)
    (hC : ∀ row ∈ grid, row.length = C) (ws : List String) (word : String) (x : Char) :
    search_for_words_py grid ws = some (search_for_words grid ws) ∧
    search_for_words ([] : Grid) ws = [] ∧
    (max grid.length C < word.data.length → search_for_words grid [word] = []) ∧
    (x ∈ word.data → (∀ row ∈ grid, ∀ cell ∈ row, cell ≠ x.toString) →
      search_for_words grid [word] = []) := by
  refine ⟨search_for_words_py_eq grid C hC ws, ?_, ?_, ?_⟩
  · rw [search_for_words_eq]
    have hnone : ∀ w : String, search_word ([] : Grid) w.data = none := fun w => rfl
    simp [hnone]
  · intro hlen
    rw [search_for_words_eq]
    simp [search_word_none_of_long grid C hC word.data hlen]
  · intro hx hmiss
    rw [search_for_words_eq]
    simp [search_word_none_of_missing grid C hC word.data x hx hmiss]

/-- Witness for C5 (amended) on the 1×1 grid `A`. -/
theorem search_for_words_safe_witness :
    (∀ row ∈ ([["A"]] : Grid), row.length = 1) ∧
    (max ([["A"]] : Grid).length 1 < ("BB" : String).data.length) ∧
    (('B') ∈ ("BB" : String).data) ∧
    (∀ row ∈ ([["A"]] : Grid), ∀ cell ∈ row, cell ≠ ('B').toString) ∧
    search_for_words_py [["A"]] ["A"] = some (search_for_words [["A"]] ["A"]) ∧
    search_for_words ([] : Grid) ["A"] = [] ∧
    search_for_words [["A"]] ["BB"] = [] :=
  ⟨by decide, by decide, by decide, by decide,
    (search_for_words_safe [["A"]] 1 (by decide) ["A"] ("BB") ('B')).1,
    (search_for_words_safe [["A"]] 1 (by decide) ["A"] ("BB") ('B')).2.1,
    (search_for_words_safe [["A"]] 1 (by decide) ["A"] ("BB") ('B')).2.2.1 (by decide)⟩

/-- C8: loading the grid lines `W I S D O M / B C I A K D / S H A I M E` and
the word line `WISDOM` gives a 3×6 grid, and the search reports the Match
`("WISDOM", 1, 1, "horizontal_right")` with 1-based coordinates; blank input
lines are ignored by both loaders and words are normalized to uppercase. -/
theorem load_and_search_round_trip :
    load_grid ["W I S D O M", "B C I A K D", "S H A I M E"]
        = [["W", "I", "S", "D", "O", "M"],
           ["B", "C", "I", "A", "K", "D"],
           ["S", "H", "A", "I", "M", "E"]] ∧
    (load_grid ["W I S D O M", "B C I A K D", "S H A I M E"]).length = 3 ∧
    (∀ row ∈ load_grid ["W I S D O M", "B C I A K D", "S H A I M E"],
        row.length = 6) ∧
    search_for_words (load_grid ["W I S D O M", "B C I A K D", "S H A I M E"])
        (load_words ["WISDOM"])
      = [("WISDOM", 1, 1, "horizontal_right")] ∧
    load_grid ["", "W I S D O M", "   ", "B C I A K D", "S H A I M E"]
        = load_grid ["W I S D O M", "B C I A K D", "S H A I M E"] ∧
    load_words ["", "wisdom", "   "] = ["WISDOM"] :=
  ⟨by decide, by decide, by decide, by decide, by decide, by decide⟩

end WordSearch
